import Mathlib

/-!
Verification development for the ssa2 method-set / wrapper-synthesis core
(promote.go) and its instruction emitters (emit helpers).

The Go sources are shallowly embedded: go/types data (types, method
objects, selections) becomes first-order inductive data; the mutable
`*Function` under construction becomes an explicit `FState` threaded
through the emitters; Go panics become `Except.error`; the program-wide
registries (`Program.methodSets`, `Program.ifaceMethodWrappers`,
`Program.concreteMethods`) become association lists threaded through the
registry operations.

Facilities of the external go/types front end (basic-kind info flags,
`DefaultType`, type identity, `typ.MethodSet()`) and the small pieces of
this repository that are outside the provided sources (`deref`,
`isPointer`, `Function.addSpilledParam`, `Function.addParam`) are modelled
from the spec, as noted on each definition.
-/

/-- Basic-kind tags of the go/types front end (types.BasicKind). -/
inductive BasicKind where
  | bool | int | int8 | int16 | int32 | int64
  | uint | uint8 | uint16 | uint32 | uint64 | uintptr
  | float32 | float64 | complex64 | complex128 | stringK | unsafePointer
  | untypedBool | untypedInt | untypedRune | untypedFloat
  | untypedComplex | untypedString | untypedNil
deriving DecidableEq, Repr

/-- Modelled from the spec (§6 front end): the IsUnsigned info flag of a
basic kind. -/
def BasicKind.isUnsigned : BasicKind → Bool
  | .uint | .uint8 | .uint16 | .uint32 | .uint64 | .uintptr => true
  | _ => false

/-- Modelled from the spec (§6 front end): the IsBoolean info flag of a
basic kind. -/
def BasicKind.isBoolean : BasicKind → Bool
  | .bool | .untypedBool => true
  | _ => false

/-- Modelled from the spec (§6 front end): the IsUntyped info flag of a
basic kind. -/
def BasicKind.isUntyped : BasicKind → Bool
  | .untypedBool | .untypedInt | .untypedRune | .untypedFloat
  | .untypedComplex | .untypedString | .untypedNil => true
  | _ => false

/-- Modelled from the spec (§4.3 conversion): the default (natural
concrete) kind of an untyped basic kind, as computed by the front end's
DefaultType. -/
def BasicKind.defaultKind : BasicKind → BasicKind
  | .untypedBool => .bool
  | .untypedInt => .int
  | .untypedRune => .int32
  | .untypedFloat => .float64
  | .untypedComplex => .complex128
  | .untypedString => .stringK
  | k => k

mutual
/-- Structural model of go/types types (spec §3 Type: identity plus a
structural classification).  Opaque classes (interfaces, signatures) carry
a numeric identity; named types carry an identity and their underlying
type. -/
inductive GoType where
  | basic (kind : BasicKind)
  | pointer (elem : GoType)
  | iface (id : Nat)
  | struct0 (fields : GoTypes)
  | chan (elem : GoType)
  | signature (id : Nat)
  | slice (elem : GoType)
  | tuple (comps : GoTypes)
  | named (id : Nat) (under : GoType)
deriving DecidableEq, Repr
/-- Field/component lists of struct and tuple types (kept as a mutual
inductive so that equality of types is decidable). -/
inductive GoTypes where
  | nil
  | cons (head : GoType) (tail : GoTypes)
deriving DecidableEq, Repr
end

/-- List view of a GoTypes field list. -/
def GoTypes.toList : GoTypes → List GoType
  | .nil => []
  | .cons h t => h :: t.toList

/-- GoTypes built from a List of types. -/
def GoTypes.ofList : List GoType → GoTypes
  | [] => .nil
  | h :: t => .cons h (GoTypes.ofList t)

/-- Indexed access into a field list (types.Struct.Field /
types.Tuple.At); `none` models the panic on an out-of-range index. -/
def GoTypes.get? : GoTypes → Nat → Option GoType
  | .nil, _ => none
  | .cons h _, 0 => some h
  | .cons _ t, n+1 => t.get? n

/-- Number of fields/components. -/
def GoTypes.length : GoTypes → Nat
  | .nil => 0
  | .cons _ t => t.length + 1

/-- Underlying type (types.Type.Underlying): a named type reports its
underlying type, every other type reports itself. -/
def GoType.underlying : GoType → GoType
  | .named _ u => u
  | t => t

/-- Check that a type is (structurally) an interface, used on underlying
types for the `.(*types.Interface)` type assertions in the source. -/
def isInterfaceU : GoType → Bool
  | .iface _ => true
  | _ => false

/-- Check that a type is (structurally) a basic untyped type, for the
`Info()&types.IsUntyped != 0` test in emitConv. -/
def isUntypedBasic : GoType → Bool
  | .basic k => k.isUntyped
  | _ => false

/-- Check that a type is (structurally) a basic boolean type, for the
`Info()&types.IsBoolean != 0` test in emitCompare. -/
def isBooleanBasic : GoType → Bool
  | .basic k => k.isBoolean
  | _ => false

/-- Modelled from the spec (§3: equality is structural): types.IsIdentical. -/
def IsIdentical (a b : GoType) : Bool := a == b

/-- Modelled from the spec (§4.2a step 1/2, receiver addressing mode):
the repository's isPointer helper — the type's underlying type is a
pointer. -/
def isPointer (t : GoType) : Bool :=
  match t.underlying with
  | .pointer _ => true
  | _ => false

/-- Modelled from the spec (§4.3 load: result type = pointee type): the
repository's deref helper — strip one pointer, via the underlying type;
non-pointers are returned unchanged. -/
def deref (t : GoType) : GoType :=
  match t.underlying with
  | .pointer e => e
  | _ => t

/-- Modelled from the spec (§4.3 convert, untyped literals): the front
end's DefaultType; non-basic types are returned unchanged. -/
def DefaultType : GoType → GoType
  | .basic k => .basic k.defaultKind
  | t => t

/-- Abstract constant values carried by literal constants (exact/abstract
values of go/exact). -/
inductive ConstVal where
  | boolV (b : Bool)
  | intV (n : Int)
  | strV (s : String)
  | nilV
deriving DecidableEq, Repr

/-- SSA values (spec §3 Value): a constant, a parameter, a capture, or the
result of the instruction at a given position of the function body; each
carries its one static type. -/
inductive Value where
  | const (v : ConstVal) (typ : GoType)
  | param (idx : Nat) (typ : GoType)
  | capture (idx : Nat) (typ : GoType)
  | instr (idx : Nat) (typ : GoType)
deriving DecidableEq, Repr

/-- Static type of a value. -/
def Value.type : Value → GoType
  | .const _ t => t
  | .param _ t => t
  | .capture _ t => t
  | .instr _ t => t

/-- Check for the `val.(*Const)` type assertions in emitCompare/emitConv. -/
def Value.isConstV : Value → Bool
  | .const _ _ => true
  | _ => false

/-- Constant view of a value (the `c, ok := val.(*Const)` assertion form,
yielding the constant's abstract value on success). -/
def Value.constOf : Value → Option ConstVal
  | .const c _ => some c
  | _ => none

/-- Shared basic bool type (the repository's tBool). -/
def tBool : GoType := .basic .bool

/-- Shared untyped-nil type (the repository's tUntypedNil). -/
def tUntypedNil : GoType := .basic .untypedNil

/-- Shared boolean true constant (the repository's vTrue). -/
def vTrue : Value := .const (.boolV true) tBool

/-- Nil constant of a given type (the repository's nilConst). -/
def nilConst (typ : GoType) : Value := .const .nilV typ

/-- Go binary-operator tokens reaching the emitters (go/token.Token). -/
inductive Token where
  | shl | shr
  | add | sub | mul | quo | rem
  | and | or | xor | andNot
  | eql | neq | lss | leq | gtr | geq
deriving DecidableEq, Repr

/-- Operator spelling (token.Token.String), used in the emitArith panic
message. -/
def Token.str : Token → String
  | .shl => "<<"
  | .shr => ">>"
  | .add => "+"
  | .sub => "-"
  | .mul => "*"
  | .quo => "/"
  | .rem => "%"
  | .and => "&"
  | .or => "|"
  | .xor => "^"
  | .andNot => "&^"
  | .eql => "=="
  | .neq => "!="
  | .lss => "<"
  | .leq => "<="
  | .gtr => ">"
  | .geq => ">="

/-- Method objects of the front end (*types.Func: spec §3 Method object):
object identity, name (also the method-set key Id()), declared receiver
type and declared signature. -/
structure Func0 where
  oid : Nat
  name : String
  recv : GoType
  params : List GoType := []
  results : List GoType := []
  variadic : Bool := false
deriving DecidableEq, Repr

/-- Receiver type of a method object (promote.go recvType). -/
def recvType (obj : Func0) : GoType := obj.recv

/-- Resolved selections of the front end (*types.Selection: spec §3
Selection): receiver type, target method object, embedding-index path. -/
structure Selection where
  recv : GoType
  obj : Func0
  index : List Nat
deriving DecidableEq, Repr

/-- Callee slot of a call: a direct reference to the concrete Function
registered for a method object, or an ordinary operand value. -/
inductive CallValue where
  | fnV (obj : Func0)
  | valV (v : Value)
deriving DecidableEq, Repr

/-- Shared call description (ssa2 CallCommon): Value is the callee (direct
mode) or the receiver (invoke mode, when Method is set). -/
structure CallCommon where
  value : Option CallValue := none
  method : Option Func0 := none
  args : List Value := []
deriving DecidableEq, Repr

/-- IR instructions (spec §3 Instruction, restricted to the tags the
embedded operations emit).  Result-producing tags record their result
type. -/
inductive Instr where
  | alloc (typ : GoType) (heap : Bool)
  | load (x : Value) (typ : GoType)
  | binOp (op : Token) (x y : Value) (typ : GoType)
  | fieldAddr (x : Value) (fieldIndex : Nat) (typ : GoType)
  | fieldVal (x : Value) (fieldIndex : Nat) (typ : GoType)
  | changeType (x : Value) (typ : GoType)
  | changeInterface (x : Value) (typ : GoType)
  | makeInterface (x : Value) (typ : GoType)
  | convert (x : Value) (typ : GoType)
  | extract (tuple : Value) (index : Nat) (typ : GoType)
  | call (c : CallCommon) (typ : GoType)
  | store (addr val : Value)
  | ret (results : List Value)
deriving DecidableEq, Repr

/-- Result type of an instruction (void instructions report an empty
tuple; their result value is never used). -/
def Instr.type : Instr → GoType
  | .alloc t _ => .pointer t
  | .load _ t => t
  | .binOp _ _ _ t => t
  | .fieldAddr _ _ t => t
  | .fieldVal _ _ t => t
  | .changeType _ t => t
  | .changeInterface _ t => t
  | .makeInterface _ t => t
  | .convert _ t => t
  | .extract _ _ t => t
  | .call _ t => t
  | .store _ _ => .tuple .nil
  | .ret _ => .tuple .nil

/-- Finished IR function (spec §3 Function), with the single entry block's
instruction list as its body. -/
structure Function where
  name : String
  synthetic : String
  sigRecv : Option GoType := none
  sigParams : List GoType := []
  sigResults : List GoType := []
  variadic : Bool := false
  params : List Value := []
  locals : List Value := []
  freeVars : List (String × GoType) := []
  body : List Instr := []
deriving DecidableEq, Repr

/-- Method sets produced by the registry (ssa2 `type MethodSet
map[string]*Function`), keyed by the method identifier string. -/
abbrev MethodSetMap := List (String × Function)

/-- Program-wide state (spec §2 MethodSetRegistry plus the per-program
wrapper caches): the concrete-method table, the interface-wrapper memo
table, the method-set memo table, and the front end's method-set
enumeration (`typ.MethodSet()`), modelled as an oracle table. -/
structure Program where
  concreteMethods : List (Nat × Function) := []
  ifaceMethodWrappers : List (Nat × Function) := []
  methodSets : List (GoType × MethodSetMap) := []
  typeMethodSet : List (GoType × List Selection) := []
deriving DecidableEq, Repr

deriving instance DecidableEq for Except

/-- Update of an association list in place (map assignment `m[k] = v`):
replace the first binding of the key, or append a new binding. -/
def assocSet {α β : Type} [BEq α] : List (α × β) → α → β → List (α × β)
  | [], k, v => [(k, v)]
  | (k0, v0) :: t, k, v =>
      if k0 == k then (k, v) :: t else (k0, v0) :: assocSet t k v

/-- State of a single function under construction (the mutable parts of
`*Function` the emitters touch): emitted instruction list of the entry
block, whether a block is open (`f.currentBlock != nil`), the signature's
result types, the parameter and local lists, and the types registered via
`needMethodsOf`. -/
structure FState where
  instrs : List Instr := []
  blockOpen : Bool := true
  resultTypes : List GoType := []
  params : List Value := []
  locals : List Value := []
  needMethods : List GoType := []
deriving DecidableEq, Repr

/-- Append an instruction to the function under construction
(`Function.emit`), returning the new state and the instruction's result
value. -/
def FState.emit (f : FState) (i : Instr) : FState × Value :=
  ({ f with instrs := f.instrs ++ [i] }, Value.instr f.instrs.length i.type)

/-- Emit a load through addr (emitLoad): an UnOp MUL whose result type is
the pointee type of addr. -/
def emitLoad (f : FState) (addr : Value) : FState × Value :=
  f.emit (.load addr (deref addr.type))

/-- Check whether a conversion between two underlying types is
value-preserving (isValuePreserving): identical underlying types, or both
channels, both pointers, or both signatures. -/
def isValuePreserving (ut_src ut_dst : GoType) : Bool :=
  if IsIdentical ut_dst ut_src then true
  else
    match ut_dst with
    | .chan _ =>
        match ut_src with
        | .chan _ => true
        | _ => false
    | .pointer _ =>
        match ut_src with
        | .pointer _ => true
        | _ => false
    | .signature _ =>
        match ut_src with
        | .signature _ => true
        | _ => false
    | _ => false

theorem defaultType_not_iface (t : GoType) (h : isUntypedBasic t = true) :
    isInterfaceU (DefaultType t).underlying = false := by
  cases t <;> simp [isUntypedBasic, DefaultType, GoType.underlying, isInterfaceU] at *

/-- Emit a conversion of val to exactly type typ (emitConv): identical
types are a no-op; value-preserving conversions relabel via ChangeType;
interface targets reinterpret, nil, default-then-box (registering the
boxed type with needMethodsOf); constants to non-interface types become a
new constant of the target type; everything else is a Convert. -/
def emitConv (f : FState) (val : Value) (typ : GoType) : FState × Value :=
  let t_src := val.type
  if IsIdentical t_src typ then (f, val)
  else
    let ut_dst := typ.underlying
    let ut_src := t_src.underlying
    if isValuePreserving ut_src ut_dst then
      f.emit (.changeType val typ)
    else if hi : isInterfaceU ut_dst then
      if isInterfaceU ut_src then
        f.emit (.changeInterface val typ)
      else if ut_src = tUntypedNil then
        (f, nilConst typ)
      else
        let fv :=
          if hb : isUntypedBasic ut_src then emitConv f val (DefaultType ut_src)
          else (f, val)
        let f2 := { fv.1 with needMethods := fv.1.needMethods ++ [fv.2.type] }
        f2.emit (.makeInterface fv.2 typ)
    else
      match val.constOf with
      | some c => (f, .const c typ)
      | none => f.emit (.convert val typ)
termination_by (if isInterfaceU typ.underlying then 1 else 0)
decreasing_by
  simp only [defaultType_not_iface _ hb, hi]
  simp

/-- Emit the boolean comparison `x op y` (emitCompare): the tagless-switch
special case returns y directly when x is the shared true constant, the
operator is equality and y is of boolean basic type; otherwise operands
are converted by the first matching rule and one BinOp of type bool is
emitted. -/
def emitCompare (f : FState) (op : Token) (x y : Value) : FState × Value :=
  let xt := x.type.underlying
  let yt := y.type.underlying
  if x = vTrue ∧ op = Token.eql ∧ isBooleanBasic yt then
    (f, y)
  else
    let r :=
      if IsIdentical xt yt then
        (f, x, y)
      else if isInterfaceU xt then
        let ry := emitConv f y x.type
        (ry.1, x, ry.2)
      else if isInterfaceU yt then
        let rx := emitConv f x y.type
        (rx.1, rx.2, y)
      else if x.isConstV then
        let rx := emitConv f x y.type
        (rx.1, rx.2, y)
      else if y.isConstV then
        let ry := emitConv f y x.type
        (ry.1, x, ry.2)
      else
        (f, x, y)
    r.1.emit (.binOp op r.2.1 r.2.2 tBool)

/-- Emit the eager binary operation `op(x, y)` at result type t
(emitArith): shifts convert the left operand to t and the right operand to
uint64 when its (basic) type is not already unsigned; the other eager
arithmetic/bitwise operators convert both operands to t; any other
operator is a programmer error (panic, modelled as Except.error). -/
def emitArith (f : FState) (op : Token) (x y : Value) (t : GoType) :
    Except String (FState × Value) :=
  match op with
  | .shl | .shr =>
      let rx := emitConv f x t
      let ry :=
        match y.type.underlying with
        | .basic k =>
            if k.isUnsigned then (rx.1, y)
            else emitConv rx.1 y (GoType.basic .uint64)
        | _ => (rx.1, y)
      .ok (ry.1.emit (.binOp op rx.2 ry.2 t))
  | .add | .sub | .mul | .quo | .rem | .and | .or | .xor | .andNot =>
      let rx := emitConv f x t
      let ry := emitConv rx.1 y t
      .ok (ry.1.emit (.binOp op rx.2 ry.2 t))
  | _ => .error ("illegal op in emitArith: " ++ op.str)

/-- Emit extraction of the index-th component of a tuple-typed value
(emitExtract); the type-assertion panic on a non-tuple or out-of-range
index is modelled as Except.error. -/
def emitExtract (f : FState) (tuple : Value) (index : Nat) :
    Except String (FState × Value) :=
  match tuple.type with
  | .tuple comps =>
      match comps.get? index with
      | some t => .ok (f.emit (.extract tuple index t))
      | none => .error "emitExtract: index out of range"
  | _ => .error "emitExtract: not a tuple"

/-- Emit a call in tail position (emitTailCall): the call is typed by the
enclosing signature's results (a lone result directly, otherwise the
result tuple); 0 results return bare, 1 result returns the call value,
more results are each extracted in ascending index order; the current
block is then closed. -/
def emitTailCall (f : FState) (call : CallCommon) : Except String FState := do
  let tresults := f.resultTypes
  let nr := tresults.length
  let callTyp :=
    match tresults with
    | [t] => t
    | _ => GoType.tuple (GoTypes.ofList tresults)
  let rc := f.emit (.call call callTyp)
  let f := rc.1
  let tuple := rc.2
  let step ←
    if nr == 0 then
      pure (f, ([] : List Value))
    else if nr == 1 then
      pure (f, [tuple])
    else
      (List.range nr).foldlM
        (fun (acc : FState × List Value) i => do
          let r ← emitExtract acc.1 tuple i
          pure (r.1, acc.2 ++ [r.2]))
        (f, ([] : List Value))
  let rr := step.1.emit (.ret step.2)
  pure { rr.1 with blockOpen := false }

/-- Emit the sequence of implicit field selections given by indices to
base value v (emitImplicitSelections): at a pointer a FieldAddr typed
pointer-to-field is emitted, followed by a load exactly when the field's
own declared type is a pointer; at a plain struct value a Field value
extraction is emitted; the field-selection panic on a non-struct value is
modelled as Except.error. -/
def emitImplicitSelections (f : FState) (v : Value) (indices : List Nat) :
    Except String (FState × Value) :=
  match indices with
  | [] => .ok (f, v)
  | index :: rest =>
      match (deref v.type).underlying with
      | .struct0 fields =>
          match fields.get? index with
          | some fld =>
              if isPointer v.type then
                let ra := f.emit (.fieldAddr v index (.pointer fld))
                let rl :=
                  if isPointer fld then emitLoad ra.1 ra.2
                  else ra
                emitImplicitSelections rl.1 rl.2 rest
              else
                let rf := f.emit (.fieldVal v index fld)
                emitImplicitSelections rf.1 rf.2 rest
          | none => .error "emitImplicitSelections: field index out of range"
      | _ => .error "emitImplicitSelections: not a struct"

/-- Modelled from the spec (§4.2 skeleton: materialize parameters): the
repository's Function.addParam for wrapper methods — append one parameter
value of the given type; no instruction is emitted. -/
def FState.addParam (f : FState) (typ : GoType) : FState × Value :=
  let p := Value.param f.params.length typ
  ({ f with params := f.params ++ [p] }, p)

/-- Create the non-receiver parameters of a wrapper from its signature
(createParams); if the signature is variadic the final parameter's type
becomes the corresponding slice type. -/
def createParams (f : FState) (tparams : List GoType) (variadic : Bool) : FState :=
  let f := tparams.foldl (fun f t => (f.addParam t).1) f
  if variadic then
    match f.params.getLast? with
    | some (Value.param i t) =>
        { f with params := f.params.dropLast ++ [Value.param i (.slice t)] }
    | some v => { f with params := f.params.dropLast ++ [v] }
    | none => f
  else f

/-- Modelled from the spec (§4.2a step 1: if the receiver parameter is
passed by value, take the address of its spilled local): the repository's
Function.addSpilledParam — add the receiver parameter, allocate a local of
its type (recorded as Locals[0], of pointer type), and store the parameter
into it. -/
def addSpilledParam (f : FState) (typ : GoType) : FState :=
  let rp := f.addParam typ
  let ra := rp.1.emit (.alloc typ false)
  let f := { ra.1 with locals := ra.1.locals ++ [ra.2] }
  (f.emit (.store ra.2 rp.2)).1

/-- Look up the concrete Function registered for a method object
(Program.concreteMethod); its absence is a fatal internal-consistency
error (panic, modelled as Except.error). -/
def Program.concreteMethod (prog : Program) (obj : Func0) :
    Except String Function :=
  match prog.concreteMethods.lookup obj.oid with
  | some fn => .ok fn
  | none => .error ("no concrete method: " ++ obj.name)

/-- Construct and emit, in tail position, the call of a promotion/
indirection wrapper (makeWrapper, call-construction part): for a concrete
target the arrived-at pointer is loaded first when the method declares a
value receiver and a direct call to the method's registered Function is
emitted with it as first argument; for an abstract target the arrived-at
pointer is loaded and an abstract (invoke-mode) call on the loaded
receiver is emitted; the remaining wrapper parameters are appended
unchanged. -/
def wrapperEmitCall (prog : Program) (mfunc : Func0) (f : FState) (v : Value) :
    Except String FState := do
  let rfc ←
    if !isInterfaceU (recvType mfunc).underlying then do
      let rv :=
        if !isPointer (recvType mfunc) then emitLoad f v
        else (f, v)
      let _ ← prog.concreteMethod mfunc
      pure (rv.1, ({ value := some (.fnV mfunc), args := [rv.2] } : CallCommon))
    else
      let rl := emitLoad f v
      pure (rl.1, ({ value := some (.valV rl.2), method := some mfunc } : CallCommon))
  let f := rfc.1
  let c := { rfc.2 with args := rfc.2.args ++ f.params.drop 1 }
  emitTailCall f c

/-- Construct a synthetic promotion/indirection wrapper (makeWrapper):
spill the receiver parameter, create the formal parameters, obtain a
pointer-valued base (loading the receiver parameter when the receiver type
is a pointer), walk all but the last embedding index via
emitImplicitSelections, then construct and emit the tail call. -/
def makeWrapper (prog : Program) (typ : GoType) (meth : Selection) :
    Except String Function := do
  let mfunc := meth.obj
  let f : FState := { resultTypes := mfunc.results }
  let f := addSpilledParam f typ
  let f := createParams f mfunc.params mfunc.variadic
  let v0 := f.locals.headD (Value.instr 0 (GoType.pointer typ))
  let rb := if isPointer typ then emitLoad f v0 else (f, v0)
  let indices := meth.index
  let rw ← emitImplicitSelections rb.1 rb.2 indices.dropLast
  let fF ← wrapperEmitCall prog mfunc rw.1 rw.2
  pure { name := mfunc.name
         synthetic := "wrapper for " ++ mfunc.name
         sigRecv := some typ
         sigParams := mfunc.params
         sigResults := mfunc.results
         variadic := mfunc.variadic
         params := fF.params
         locals := fF.locals
         body := fF.instrs }

/-- Construct (memoized per method-object identity, shared across all
interface receiver types) the wrapper permitting an abstract method to be
called as a standalone function (interfaceMethodWrapper): one explicit
leading receiver parameter followed by the method's formals, whose body is
one abstract call on that parameter emitted in tail position. -/
def interfaceMethodWrapper (prog : Program) (typ : GoType) (obj : Func0) :
    Except String (Program × Function) := do
  match prog.ifaceMethodWrappers.lookup obj.oid with
  | some fn => pure (prog, fn)
  | none =>
      let f : FState := { resultTypes := obj.results }
      let rp := f.addParam typ
      let f := createParams rp.1 obj.params obj.variadic
      let c : CallCommon :=
        { method := some obj
          value := some (.valV (f.params.headD (Value.param 0 typ)))
          args := f.params.drop 1 }
      let fF ← emitTailCall f c
      let fn : Function :=
        { name := obj.name
          synthetic := "interface method wrapper for " ++ obj.name
          sigRecv := some obj.recv
          sigParams := obj.params
          sigResults := obj.results
          variadic := obj.variadic
          params := fF.params
          body := fF.instrs }
      pure ({ prog with
                ifaceMethodWrappers := prog.ifaceMethodWrappers ++ [(obj.oid, fn)] },
            fn)

/-- Resolve a selection to its concrete Function, synthesizing wrappers as
needed (findMethod): a promotion/indirection wrapper when the index path
is longer than 1 or the (value-typed) receiver selects a pointer-receiver
target is needed — precisely, when the declared receiver is not a pointer
while the selection's receiver is; else the interface-method wrapper for
an interface receiver; else the registered concrete Function. -/
def findMethod (prog : Program) (meth : Selection) :
    Except String (Program × Function) := do
  let needsPromotion := meth.index.length > 1
  let mfunc := meth.obj
  let needsIndirection := !isPointer (recvType mfunc) && isPointer meth.recv
  if needsPromotion || needsIndirection then
    let fn ← makeWrapper prog meth.recv meth
    pure (prog, fn)
  else if isInterfaceU meth.recv.underlying then
    interfaceMethodWrapper prog meth.recv mfunc
  else do
    let fn ← prog.concreteMethod mfunc
    pure (prog, fn)

/-- Front-end method-set enumeration as consulted by the registry
(promote.go methodSet): a pointer whose pointee's underlying type is an
interface is reported as having no methods, overriding the front end;
otherwise the front end's enumeration (`typ.MethodSet()`, modelled as the
oracle table) is returned. -/
def methodSet (prog : Program) (typ : GoType) : List Selection :=
  if isInterfaceU (deref typ).underlying && isPointer typ then []
  else (prog.typeMethodSet.lookup typ).getD []

/-- Loop body shared by the two population modes (the `mset[id] == nil`
guarded `mset[id] = findMethod(prog, meth)` assignment of
populateMethodSet): resolve one selection and record it under its method
identifier only when that identifier has no entry yet. -/
def populateStep (acc : Program × MethodSetMap) (m : Selection) :
    Except String (Program × MethodSetMap) := do
  let id := m.obj.name
  if ((acc.2).lookup id).isNone then do
    let rf ← findMethod acc.1 m
    pure (rf.1, acc.2 ++ [(id, rf.2)])
  else
    pure acc

/-- Populate the method set for typ (populateMethodSet): nil (none) for an
empty enumeration; otherwise the memoized set, extended — only at
identifiers not already present — either by the single requested
selection, or by every enumerated selection when meth is none; the
(possibly extended) set is stored back into the registry. -/
def populateMethodSet (prog : Program) (typ : GoType) (meth : Option Selection) :
    Except String (Program × Option MethodSetMap) := do
  let tmset := methodSet prog typ
  let n := tmset.length
  if n == 0 then
    pure (prog, none)
  else
    let mset := (prog.methodSets.lookup typ).getD []
    let pm ←
      if mset.length < n then
        match meth with
        | some m => populateStep (prog, mset) m
        | none => tmset.foldlM populateStep (prog, mset)
      else
        pure (prog, mset)
    let prog := { pm.1 with methodSets := assocSet pm.1.methodSets typ pm.2 }
    pure (prog, some pm.2)

/-- Full method set of a type (Program.MethodSet): populate every entry. -/
def Program.MethodSet (prog : Program) (typ : GoType) :
    Except String (Program × Option MethodSetMap) :=
  populateMethodSet prog typ none

/-- Single-method lookup (Program.LookupMethod): populate only the
requested entry through the shared memo table and index the result by the
method identifier (nil map indexing yields none). -/
def LookupMethod (prog : Program) (meth : Selection) :
    Except String (Program × Option Function) := do
  let r ← populateMethodSet prog meth.recv (some meth)
  pure (r.1, (r.2.getD []).lookup meth.obj.name)

/-- Length of an ofList field list. -/
theorem GoTypes.length_ofList (l : List GoType) :
    (GoTypes.ofList l).length = l.length := by
  induction l with
  | nil => rfl
  | cons h t ih => simp [GoTypes.ofList, GoTypes.length, ih]

/-- In-range indices of a field list are present. -/
theorem GoTypes.get?_isSome : (comps : GoTypes) → (n : Nat) → n < comps.length →
    ∃ t, comps.get? n = some t
  | .nil, n, hn => absurd hn (by simp [GoTypes.length])
  | .cons h _, 0, _ => ⟨h, rfl⟩
  | .cons _ t, n+1, hn =>
      GoTypes.get?_isSome t n (by simp only [GoTypes.length] at hn; omega)

/-- Specification-level trace of a tail call (spec §4.3 tail-call row and
the claims on emitTailCall): the call instruction typed by the result
list (a lone result directly, else the result tuple), then — for more
than one result — one extraction per component in ascending index order
with no conversion, then the return. -/
def tailCallTrace (base : Nat) (tresults : List GoType) (c : CallCommon) :
    List Instr :=
  let callTyp :=
    match tresults with
    | [t] => t
    | _ => GoType.tuple (GoTypes.ofList tresults)
  let callI := Instr.call c callTyp
  let tuple := Value.instr base callTyp
  match tresults with
  | [] => [callI, Instr.ret []]
  | [_] => [callI, Instr.ret [tuple]]
  | _ =>
      let n := tresults.length
      callI ::
        ((List.range n).map fun i =>
          Instr.extract tuple i (((GoTypes.ofList tresults).get? i).getD tBool)) ++
        [Instr.ret ((List.range n).map fun i =>
          Value.instr (base + 1 + i) (((GoTypes.ofList tresults).get? i).getD tBool))]

theorem extractFoldAux (comps : GoTypes) (tv : Value)
    (htv : tv.type = .tuple comps) :
    ∀ (n : Nat), n ≤ comps.length → ∀ (f : FState) (acc : List Value),
    (List.range n).foldlM
      (fun (a : FState × List Value) i => do
        let r ← emitExtract a.1 tv i
        pure (r.1, a.2 ++ [r.2]))
      (f, acc)
    = .ok ({ f with instrs := f.instrs ++
              (List.range n).map (fun i => Instr.extract tv i ((comps.get? i).getD tBool)) },
           acc ++ (List.range n).map
              (fun i => Value.instr (f.instrs.length + i) ((comps.get? i).getD tBool))) := by
  intro n
  induction n with
  | zero =>
      intro _ f acc
      simp [List.foldlM_nil, pure, Except.pure]
  | succ m ih =>
      intro hm f acc
      rw [List.range_succ, List.foldlM_append, ih (by omega) f acc]
      obtain ⟨t, ht⟩ := GoTypes.get?_isSome comps m (by omega)
      simp only [List.foldlM_cons, List.foldlM_nil, emitExtract, htv, ht,
        FState.emit, Instr.type, bind, Except.bind, pure, Except.pure]
      simp only [List.range_succ, List.map_append, List.map_cons,
        List.map_nil, List.length_append, List.length_map, List.length_range, ht]
      simp [List.append_assoc]

/-- Characterization of emitTailCall by its appended instruction trace:
it always succeeds, appends exactly tailCallTrace, and closes the current
block. -/
theorem emitTailCall_trace (f : FState) (c : CallCommon) :
    emitTailCall f c =
      .ok { f with
              instrs := f.instrs ++ tailCallTrace f.instrs.length f.resultTypes c,
              blockOpen := false } := by
  rcases hr : f.resultTypes with _ | ⟨t1, _ | ⟨t2, ts⟩⟩
  · simp [emitTailCall, hr, tailCallTrace, FState.emit, Instr.type, bind,
      Except.bind, pure, Except.pure]
  · simp [emitTailCall, hr, tailCallTrace, FState.emit, Instr.type, bind,
      Except.bind, pure, Except.pure]
  · simp only [emitTailCall, hr, List.length_cons]
    have h0 : ((ts.length + 1 + 1) == 0) = false := by simp
    have h1 : ((ts.length + 1 + 1) == 1) = false := by simp
    rw [h0, h1]
    simp only [Bool.false_eq_true, if_false, FState.emit, Instr.type]
    rw [extractFoldAux (GoTypes.ofList (t1 :: t2 :: ts))
          (Value.instr f.instrs.length (GoType.tuple (GoTypes.ofList (t1 :: t2 :: ts))))
          rfl (ts.length + 1 + 1) (by simp [GoTypes.length_ofList])]
    simp only [tailCallTrace, bind, Except.bind, pure, Except.pure]
    simp [List.length_append, List.append_assoc, Nat.add_assoc, Nat.add_comm 1]
    exact hr

/-- Specification-level trace of the implicit-selection walk (spec §4.2a
step 2 / the claim): one step per index, composed left to right; at a
pointer-typed current value a FieldAddr typed pointer-to-field, followed
by a Load exactly when the field's own declared type is a pointer; at a
plain struct value a Field value extraction. -/
def implicitWalkSpec (base : Nat) (v : Value) (indices : List Nat) :
    Except String (List Instr × Value) :=
  match indices with
  | [] => .ok ([], v)
  | index :: rest =>
      match (deref v.type).underlying with
      | .struct0 fields =>
          match fields.get? index with
          | some fld =>
              if isPointer v.type then
                let a := Instr.fieldAddr v index (.pointer fld)
                let av := Value.instr base (.pointer fld)
                if isPointer fld then
                  (implicitWalkSpec (base + 2) (Value.instr (base + 1) fld) rest).map
                    (fun r => (a :: Instr.load av fld :: r.1, r.2))
                else
                  (implicitWalkSpec (base + 1) av rest).map
                    (fun r => (a :: r.1, r.2))
              else
                (implicitWalkSpec (base + 1) (Value.instr base fld) rest).map
                  (fun r => (Instr.fieldVal v index fld :: r.1, r.2))
          | none => .error "emitImplicitSelections: field index out of range"
      | _ => .error "emitImplicitSelections: not a struct"

/-- Characterization of emitImplicitSelections by its appended
instruction trace: it appends exactly the implicitWalkSpec trace (and
fails exactly when the trace is undefined, with the same message). -/
theorem emitImplicitSelections_walk (indices : List Nat) :
    ∀ (f : FState) (v : Value),
    emitImplicitSelections f v indices =
      (implicitWalkSpec f.instrs.length v indices).map
        (fun r => ({ f with instrs := f.instrs ++ r.1 }, r.2)) := by
  induction indices with
  | nil =>
      intro f v
      simp [emitImplicitSelections, implicitWalkSpec, Except.map]
  | cons index rest ih =>
      intro f v
      simp only [emitImplicitSelections, implicitWalkSpec]
      rcases hu : (deref v.type).underlying with _ | _ | _ | fields | _ | _ | _ | _ | _ <;>
        simp only [Except.map]
      rcases hg : fields.get? index with _ | fld
      · simp [Except.map]
      · simp only []
        by_cases hp : isPointer v.type
        · simp only [hp, if_true]
          by_cases hf : isPointer fld
          · simp only [hf, if_true, FState.emit, Instr.type, emitLoad, deref,
              GoType.underlying, Value.type]
            rw [ih]
            rcases hw : implicitWalkSpec (f.instrs.length + 2)
                (Value.instr (f.instrs.length + 1) fld) rest with e | r
            · simp [hw, FState.emit, List.length_append, Except.map]
            · simp [hw, FState.emit, List.length_append, Except.map, List.append_assoc]
          · simp only [hf, Bool.false_eq_true, if_false, FState.emit, Instr.type]
            rw [ih]
            rcases hw : implicitWalkSpec (f.instrs.length + 1)
                (Value.instr f.instrs.length (GoType.pointer fld)) rest with e | r
            · simp [hw, FState.emit, List.length_append, Except.map]
            · simp [hw, FState.emit, List.length_append, Except.map, List.append_assoc]
        · simp only [hp, Bool.false_eq_true, if_false, FState.emit, Instr.type]
          rw [ih]
          rcases hw : implicitWalkSpec (f.instrs.length + 1)
              (Value.instr f.instrs.length fld) rest with e | r
          · simp [hw, FState.emit, List.length_append, Except.map]
          · simp [hw, FState.emit, List.length_append, Except.map, List.append_assoc]

/-- Shape test for a wrapper body in tail-call form: exactly one leading
call instruction, then only tuple-component extractions, then the return;
returns the call's description when the body has this shape. -/
def isCallThenTail (body : List Instr) : Option CallCommon :=
  match body with
  | Instr.call c _ :: more =>
      if (match more.getLast? with
          | some (Instr.ret _) => true
          | _ => false)
          && more.dropLast.all (fun i =>
            match i with
            | Instr.extract _ _ _ => true
            | _ => false)
      then some c else none
  | _ => none

/-- Every tail-call trace has the call-extractions-return shape, and the
recovered call description is the one emitted. -/
theorem isCallThenTail_trace (base : Nat) (rts : List GoType) (c : CallCommon) :
    isCallThenTail (tailCallTrace base rts c) = some c := by
  rcases rts with _ | ⟨t1, _ | ⟨t2, ts⟩⟩
  · simp [tailCallTrace, isCallThenTail]
  · simp [tailCallTrace, isCallThenTail]
  · simp [tailCallTrace, isCallThenTail, List.getLast?_concat, List.dropLast_concat,
      List.all_eq_true]

/-- A successful Except value equals ok of the contents of its Option
view (used to name computed results in witnesses). -/
theorem exceptOkGet {ε α : Type} (x : Except ε α) (h : x.toOption.isSome) :
    x = .ok (x.toOption.get h) := by
  cases x with
  | error e => simp [Except.toOption] at h
  | ok a => rfl

/-- Lookup distributes over an appended binding: an existing binding is
unaffected by later appends. -/
theorem lookup_append_some {α β : Type} [BEq α] [LawfulBEq α]
    (l1 l2 : List (α × β)) (k : α) (v : β) (h : l1.lookup k = some v) :
    (l1 ++ l2).lookup k = some v := by
  rw [List.lookup_append, h]
  rfl

/-- Updating an association list then looking up the same key yields the
stored value. -/
theorem assocSet_lookup {α β : Type} [BEq α] [LawfulBEq α]
    (l : List (α × β)) (k : α) (v : β) :
    (assocSet l k v).lookup k = some v := by
  induction l with
  | nil => simp [assocSet, List.lookup]
  | cons hd tl ih =>
      rcases hd with ⟨k0, v0⟩
      by_cases hk : k0 = k
      · subst hk
        simp [assocSet, List.lookup]
      · have h1 : (k0 == k) = false := beq_eq_false_iff_ne.mpr hk
        have h2 : (k == k0) = false := beq_eq_false_iff_ne.mpr (fun he => hk he.symm)
        simp [assocSet, h1, List.lookup, h2, ih]

/-- Success of interfaceMethodWrapper leaves every Program field other
than the interface-wrapper memo table unchanged. -/
theorem interfaceMethodWrapper_fields (prog : Program) (typ : GoType)
    (obj : Func0) (res : Program × Function)
    (h : interfaceMethodWrapper prog typ obj = .ok res) :
    res.1.methodSets = prog.methodSets ∧
    res.1.typeMethodSet = prog.typeMethodSet ∧
    res.1.concreteMethods = prog.concreteMethods := by
  rcases hl : prog.ifaceMethodWrappers.lookup obj.oid with _ | fn
  · simp only [interfaceMethodWrapper, hl, emitTailCall_trace, bind, Except.bind,
      pure, Except.pure, Except.ok.injEq] at h
    subst h
    exact ⟨rfl, rfl, rfl⟩
  · simp only [interfaceMethodWrapper, hl, pure, Except.pure, Except.ok.injEq] at h
    subst h
    exact ⟨rfl, rfl, rfl⟩

/-- Success of findMethod leaves the method-set memo table, the front-end
oracle and the concrete-method table unchanged. -/
theorem findMethod_fields (prog : Program) (sel : Selection)
    (res : Program × Function) (h : findMethod prog sel = .ok res) :
    res.1.methodSets = prog.methodSets ∧
    res.1.typeMethodSet = prog.typeMethodSet ∧
    res.1.concreteMethods = prog.concreteMethods := by
  rw [findMethod] at h
  by_cases hc : (decide (sel.index.length > 1) || (!isPointer (recvType sel.obj) && isPointer sel.recv)) = true
  · rw [if_pos hc] at h
    rcases hw : makeWrapper prog sel.recv sel with e | fn <;> rw [hw] at h
    · simp [bind, Except.bind] at h
    · simp only [bind, Except.bind, pure, Except.pure, Except.ok.injEq] at h
      subst h
      exact ⟨rfl, rfl, rfl⟩
  · rw [if_neg hc] at h
    by_cases hi : isInterfaceU sel.recv.underlying = true
    · rw [if_pos hi] at h
      exact interfaceMethodWrapper_fields prog sel.recv sel.obj res h
    · rw [if_neg hi] at h
      rcases hm : prog.concreteMethod sel.obj with e | fn <;> rw [hm] at h
      · simp [bind, Except.bind] at h
      · simp only [bind, Except.bind, pure, Except.pure, Except.ok.injEq] at h
        subst h
        exact ⟨rfl, rfl, rfl⟩

/-- One population step never removes an existing method-set entry:
lookups that succeeded before the step succeed with the same Function
after it. -/
theorem populateStep_lookup (m : Selection) (acc : Program × MethodSetMap)
    (res : Program × MethodSetMap) (id : String) (fn : Function)
    (h : acc.2.lookup id = some fn) (hs : populateStep acc m = .ok res) :
    res.2.lookup id = some fn := by
  rw [populateStep] at hs
  by_cases hn : ((acc.2).lookup m.obj.name).isNone = true
  · rw [if_pos hn] at hs
    rcases hf : findMethod acc.1 m with e | rf <;> rw [hf] at hs
    · simp [bind, Except.bind] at hs
    · simp only [bind, Except.bind, pure, Except.pure, Except.ok.injEq] at hs
      subst hs
      exact lookup_append_some _ _ _ _ h
  · rw [if_neg hn] at hs
    simp only [pure, Except.pure, Except.ok.injEq] at hs
    subst hs
    exact h

/-- The full population loop never removes an existing method-set entry. -/
theorem populateFold_lookup (sels : List Selection) :
    ∀ (acc res : Program × MethodSetMap) (id : String) (fn : Function),
    acc.2.lookup id = some fn →
    sels.foldlM populateStep acc = .ok res →
    res.2.lookup id = some fn := by
  induction sels with
  | nil =>
      intro acc res id fn h hs
      simp only [List.foldlM_nil, pure, Except.pure, Except.ok.injEq] at hs
      subst hs
      exact h
  | cons m rest ih =>
      intro acc res id fn h hs
      rw [List.foldlM_cons] at hs
      rcases hstep : populateStep acc m with e | acc2 <;> rw [hstep] at hs
      · simp [bind, Except.bind] at hs
      · simp only [bind, Except.bind] at hs
        exact ih acc2 res id fn (populateStep_lookup m acc acc2 id fn h hstep) hs

/-- A successful populateMethodSet stores the returned method set into
the registry under its type. -/
theorem populate_stores (prog : Program) (typ : GoType) (meth : Option Selection)
    (prog1 : Program) (ms1 : MethodSetMap)
    (h : populateMethodSet prog typ meth = .ok (prog1, some ms1)) :
    prog1.methodSets.lookup typ = some ms1 := by
  rw [populateMethodSet] at h
  simp only [bind, Except.bind, pure, Except.pure] at h
  split at h
  · simp at h
  · split at h
    · split at h
      · split at h
        · simp at h
        · simp only [Except.ok.injEq, Prod.mk.injEq, Option.some.injEq] at h
          obtain ⟨hp, hm⟩ := h
          subst hp
          subst hm
          exact assocSet_lookup _ _ _
      · split at h
        · simp at h
        · simp only [Except.ok.injEq, Prod.mk.injEq, Option.some.injEq] at h
          obtain ⟨hp, hm⟩ := h
          subst hp
          subst hm
          exact assocSet_lookup _ _ _
    · simp only [Except.ok.injEq, Prod.mk.injEq, Option.some.injEq] at h
      obtain ⟨hp, hm⟩ := h
      subst hp
      subst hm
      exact assocSet_lookup _ _ _

/-- A memoized entry survives a subsequent full population of the same
type: Get returns the Function the earlier Lookup created. -/
theorem populateNone_preserves (prog1 : Program) (typ : GoType) (id : String)
    (fn : Function) (prog2 : Program) (ms2 : MethodSetMap)
    (hold : (((prog1.methodSets.lookup typ).getD []).lookup id) = some fn)
    (h : populateMethodSet prog1 typ none = .ok (prog2, some ms2)) :
    ms2.lookup id = some fn := by
  rw [populateMethodSet] at h
  simp only [bind, Except.bind, pure, Except.pure] at h
  split at h
  · simp at h
  · split at h
    · split at h
      · simp at h
      · next pm heq =>
          simp only [Except.ok.injEq, Prod.mk.injEq, Option.some.injEq] at h
          obtain ⟨_, hm⟩ := h
          subst hm
          exact populateFold_lookup _ _ _ _ _ hold heq
    · simp only [Except.ok.injEq, Prod.mk.injEq, Option.some.injEq] at h
      obtain ⟨_, hm⟩ := h
      subst hm
      exact hold

/-- C2: For every base value and every index path walked by the
implicit-selection emitter, at each step a pointer-typed current value
yields a field-address instruction typed pointer-to-field followed
immediately by a load exactly when the selected field's own declared type
is a pointer, a non-pointer struct value yields a field-value extraction,
and the steps compose left to right, one per embedding level, with no
extra or missing instructions: the emitter appends exactly the
per-step trace implicitWalkSpec. -/
theorem C2_implicit_selection_steps (f : FState) (v : Value) (indices : List Nat) :
    emitImplicitSelections f v indices =
      (implicitWalkSpec f.instrs.length v indices).map
        (fun r => ({ f with instrs := f.instrs ++ r.1 }, r.2)) :=
  emitImplicitSelections_walk indices f v

/-- C7: Every emitted tail call appends the call, then — with 0 results —
a bare return, with 1 result a return of the call value, and with more
results exactly one extraction per tuple component in ascending index
order with no conversions before the return; afterwards no block of the
function remains open. -/
theorem C7_tailcall_arity (f : FState) (c : CallCommon) :
    emitTailCall f c =
      .ok { f with
              instrs := f.instrs ++ tailCallTrace f.instrs.length f.resultTypes c,
              blockOpen := false } :=
  emitTailCall_trace f c

/-- C10: For every pointer type whose pointee's underlying type is an
interface, the public method-set queries treat the method set as empty
and return nil regardless of what the front end's enumeration reports, so
no wrapper is ever synthesized for a pointer-to-interface receiver. -/
theorem C10_ptr_iface_empty (prog : Program) (typ : GoType)
    (hp : isPointer typ = true) (hi : isInterfaceU (deref typ).underlying = true) :
    Program.MethodSet prog typ = .ok (prog, none)
    ∧ ∀ sel : Selection, sel.recv = typ → LookupMethod prog sel = .ok (prog, none) := by
  have hms : methodSet prog typ = [] := by
    simp [methodSet, hi, hp]
  have hpop : ∀ m, populateMethodSet prog typ m = .ok (prog, none) := by
    intro m
    simp [populateMethodSet, hms, pure, Except.pure, bind, Except.bind]
  constructor
  · exact hpop none
  · intro sel hrec
    rw [LookupMethod, hrec]
    simp [hpop (some sel), bind, Except.bind, pure, Except.pure, List.lookup]

/-- C10 witness: a pointer-to-interface receiver for which the front end
reports one selection still yields an empty method set from both queries. -/
theorem C10_ptr_iface_empty_witness :
    (Program.MethodSet
        { typeMethodSet := [(GoType.pointer (.iface 0),
            [{ recv := GoType.pointer (.iface 0),
               obj := { oid := 7, name := "m", recv := .iface 0 },
               index := [0] }])] }
        (GoType.pointer (.iface 0))
      = .ok ({ typeMethodSet := [(GoType.pointer (.iface 0),
            [{ recv := GoType.pointer (.iface 0),
               obj := { oid := 7, name := "m", recv := .iface 0 },
               index := [0] }])] }, none))
    ∧ (LookupMethod
        { typeMethodSet := [(GoType.pointer (.iface 0),
            [{ recv := GoType.pointer (.iface 0),
               obj := { oid := 7, name := "m", recv := .iface 0 },
               index := [0] }])] }
        { recv := GoType.pointer (.iface 0),
          obj := { oid := 7, name := "m", recv := .iface 0 },
          index := [0] }
      = .ok ({ typeMethodSet := [(GoType.pointer (.iface 0),
            [{ recv := GoType.pointer (.iface 0),
               obj := { oid := 7, name := "m", recv := .iface 0 },
               index := [0] }])] }, none)) := by
  have h := C10_ptr_iface_empty
    { typeMethodSet := [(GoType.pointer (.iface 0),
        [{ recv := GoType.pointer (.iface 0),
           obj := { oid := 7, name := "m", recv := .iface 0 },
           index := [0] }])] }
    (GoType.pointer (.iface 0)) (by decide) (by decide)
  exact ⟨h.1, h.2 _ rfl⟩

/-- C1: Under the front-end invariant that a pointer-receiver method
selected at a non-pointer receiver type is only reachable by promotion
through an embedded pointer, so its embedding-index path is longer than 1
(which holds for every selection the registry resolves, including the
promote.go example of A embedding B embedding a *C pointer), findMethod
synthesizes a promotion/indirection wrapper if and only if the
embedding-index path is longer than 1 or the selection's receiver
addressing mode differs from the declared receiver addressing mode;
otherwise an interface receiver yields the interface-method wrapper, and
any remaining case returns the registered concrete Function, whose
absence is a fatal error. -/
theorem C1_resolution (prog : Program) (sel : Selection)
    (hinv : isPointer (recvType sel.obj) = true → isPointer sel.recv = false →
      sel.index.length > 1) :
    ((sel.index.length > 1 ∨ isPointer sel.recv ≠ isPointer (recvType sel.obj)) →
      findMethod prog sel = (makeWrapper prog sel.recv sel).map (fun fn => (prog, fn)))
    ∧ (sel.index.length ≤ 1 → isPointer sel.recv = isPointer (recvType sel.obj) →
        isInterfaceU sel.recv.underlying = true →
        findMethod prog sel = interfaceMethodWrapper prog sel.recv sel.obj)
    ∧ (sel.index.length ≤ 1 → isPointer sel.recv = isPointer (recvType sel.obj) →
        isInterfaceU sel.recv.underlying = false →
        findMethod prog sel = (prog.concreteMethod sel.obj).map (fun fn => (prog, fn)))
    ∧ (sel.index.length ≤ 1 → isPointer sel.recv = isPointer (recvType sel.obj) →
        isInterfaceU sel.recv.underlying = false →
        prog.concreteMethods.lookup sel.obj.oid = none →
        findMethod prog sel = .error ("no concrete method: " ++ sel.obj.name)) := by
  refine ⟨?_, ?_, ?_, ?_⟩
  · intro hP
    have hc : (decide (sel.index.length > 1) ||
        (!isPointer (recvType sel.obj) && isPointer sel.recv)) = true := by
      cases hA : isPointer (recvType sel.obj) <;> cases hB : isPointer sel.recv
      · rcases hP with h | h
        · simp [h]
        · rw [hA, hB] at h
          simp at h
      · simp
      · simp [hinv hA hB]
      · rcases hP with h | h
        · simp [h]
        · rw [hA, hB] at h
          simp at h
    rcases hmw : makeWrapper prog sel.recv sel with e | fn <;>
      simp [findMethod, hc, hmw, Except.map, bind, Except.bind, pure, Except.pure]
  · intro hl heq hi
    have hnp : ¬ (sel.index.length > 1) := by omega
    have hc : (decide (sel.index.length > 1) ||
        (!isPointer (recvType sel.obj) && isPointer sel.recv)) = false := by
      cases hA : isPointer (recvType sel.obj) <;> rw [hA] at heq <;> simp [hnp, heq]
    simp [findMethod, hc, hi]
  · intro hl heq hi
    have hnp : ¬ (sel.index.length > 1) := by omega
    have hc : (decide (sel.index.length > 1) ||
        (!isPointer (recvType sel.obj) && isPointer sel.recv)) = false := by
      cases hA : isPointer (recvType sel.obj) <;> rw [hA] at heq <;> simp [hnp, heq]
    rcases hcm : prog.concreteMethod sel.obj with e | fn <;>
      simp [findMethod, hc, hi, hcm, Except.map, bind, Except.bind, pure, Except.pure]
  · intro hl heq hi hlk
    have hnp : ¬ (sel.index.length > 1) := by omega
    have hc : (decide (sel.index.length > 1) ||
        (!isPointer (recvType sel.obj) && isPointer sel.recv)) = false := by
      cases hA : isPointer (recvType sel.obj) <;> rw [hA] at heq <;> simp [hnp, heq]
    have hcm : prog.concreteMethod sel.obj =
        .error ("no concrete method: " ++ sel.obj.name) := by
      simp [Program.concreteMethod, hlk]
    simp [findMethod, hc, hi, hcm, bind, Except.bind]

/-- The promote.go documentation example, for the C1 witness: type C. -/
def tC : GoType := .named 3 (.struct0 .nil)

/-- The promote.go documentation example: type B struct, embedding a *C
field. -/
def tB : GoType := .named 2 (.struct0 (.cons (.pointer tC) .nil))

/-- The promote.go documentation example: type A struct, embedding B. -/
def tA : GoType := .named 1 (.struct0 (.cons tB .nil))

/-- The promote.go documentation example: the method object for the
pointer-receiver method f declared on *C. -/
def objCf : Func0 := { oid := 9, name := "f", recv := .pointer tC }

/-- The promote.go documentation example: the selection of f at the value
receiver type A, promoted through B and the embedded *C (index path of
length 3). -/
def selAf : Selection := { recv := tA, obj := objCf, index := [0, 0, 0] }

/-- C1 witness: the pointer-embedded promotion of the promote.go example
(value receiver A, method declared on *C, path length 3) resolves to a
synthesized wrapper, and a direct (path length 1, matching addressing
modes) selection on an interface receiver resolves to the
interface-method wrapper. -/
theorem C1_resolution_witness :
    (findMethod { concreteMethods := [(9, { name := "f", synthetic := "concrete" })] }
        selAf
      = (makeWrapper { concreteMethods := [(9, { name := "f", synthetic := "concrete" })] }
          selAf.recv selAf).map
          (fun fn =>
            ({ concreteMethods := [(9, { name := "f", synthetic := "concrete" })] }, fn)))
    ∧ (findMethod {} { recv := GoType.iface 5,
                       obj := { oid := 1, name := "m", recv := GoType.iface 5 },
                       index := [0] }
        = interfaceMethodWrapper {} (GoType.iface 5)
            { oid := 1, name := "m", recv := GoType.iface 5 }) :=
  ⟨(C1_resolution { concreteMethods := [(9, { name := "f", synthetic := "concrete" })] }
      selAf (by decide)).1 (by decide),
   (C1_resolution {} { recv := GoType.iface 5,
                       obj := { oid := 1, name := "m", recv := GoType.iface 5 },
                       index := [0] } (by decide)).2.1
     (by decide) (by decide) (by decide)⟩

/-- C5: Repeated lookups for the same (type, method identifier) pair
return the identical Function instance: a single-method Lookup writes into
the same memo table a full-set Get reads, so a subsequent Get observes
the entry the Lookup created rather than re-synthesizing it. -/
theorem C5_memoized_lookup (prog : Program) (typ : GoType) (m : Selection)
    (id : String) (fn : Function) (prog1 prog2 : Program) (ms1 ms2 : MethodSetMap)
    (h1 : populateMethodSet prog typ (some m) = .ok (prog1, some ms1))
    (h2 : ms1.lookup id = some fn)
    (h3 : populateMethodSet prog1 typ none = .ok (prog2, some ms2)) :
    ms2.lookup id = some fn := by
  have hst := populate_stores prog typ (some m) prog1 ms1 h1
  exact populateNone_preserves prog1 typ id fn prog2 ms2 (by rw [hst]; simpa using h2) h3

/-- C5 witness: looking a method up singly, then populating the full set,
observes the very Function instance the lookup stored. -/
theorem C5_memoized_lookup_witness :
    List.lookup "m"
      ([("m", ({ name := "m", synthetic := "concrete" } : Function))] : MethodSetMap)
      = some ({ name := "m", synthetic := "concrete" } : Function) :=
  C5_memoized_lookup
    { concreteMethods := [(2, { name := "m", synthetic := "concrete" })],
      typeMethodSet := [(GoType.named 1 (.struct0 .nil),
        [{ recv := GoType.named 1 (.struct0 .nil),
           obj := { oid := 2, name := "m", recv := GoType.named 1 (.struct0 .nil) },
           index := [0] }])] }
    (GoType.named 1 (.struct0 .nil))
    { recv := GoType.named 1 (.struct0 .nil),
      obj := { oid := 2, name := "m", recv := GoType.named 1 (.struct0 .nil) },
      index := [0] }
    "m" { name := "m", synthetic := "concrete" }
    { concreteMethods := [(2, { name := "m", synthetic := "concrete" })],
      methodSets := [(GoType.named 1 (.struct0 .nil),
        [("m", { name := "m", synthetic := "concrete" })])],
      typeMethodSet := [(GoType.named 1 (.struct0 .nil),
        [{ recv := GoType.named 1 (.struct0 .nil),
           obj := { oid := 2, name := "m", recv := GoType.named 1 (.struct0 .nil) },
           index := [0] }])] }
    { concreteMethods := [(2, { name := "m", synthetic := "concrete" })],
      methodSets := [(GoType.named 1 (.struct0 .nil),
        [("m", { name := "m", synthetic := "concrete" })])],
      typeMethodSet := [(GoType.named 1 (.struct0 .nil),
        [{ recv := GoType.named 1 (.struct0 .nil),
           obj := { oid := 2, name := "m", recv := GoType.named 1 (.struct0 .nil) },
           index := [0] }])] }
    [("m", { name := "m", synthetic := "concrete" })]
    [("m", { name := "m", synthetic := "concrete" })]
    (by decide) (by decide) (by decide)

/-- Parameter creation emits no instructions and leaves the signature's
result types, the instruction list, the locals and needMethods of the
function under construction unchanged. -/
theorem createParams_pre (tp : List GoType) (var : Bool) (f : FState) :
    (createParams f tp var).instrs = f.instrs ∧
    (createParams f tp var).resultTypes = f.resultTypes := by
  have hfold : ∀ (l : List GoType) (f0 : FState),
      (l.foldl (fun fa t => (fa.addParam t).1) f0).instrs = f0.instrs ∧
      (l.foldl (fun fa t => (fa.addParam t).1) f0).resultTypes = f0.resultTypes := by
    intro l
    induction l with
    | nil => intro f0; exact ⟨rfl, rfl⟩
    | cons hd tl ih =>
        intro f0
        simp only [List.foldl_cons]
        exact ih _
  rw [createParams]
  cases hv : var
  · simp only [Bool.false_eq_true, if_false]
    exact hfold tp f
  · simp only [if_true]
    rcases hl : (tp.foldl (fun fa t => (fa.addParam t).1) f).params.getLast? with _ | v
    · simp only [hl]
      exact hfold tp f
    · cases v <;> simp only [hl] <;> exact hfold tp f

/-- Parameter creation only appends parameters (given that a variadic
signature has at least one parameter, as the front end guarantees). -/
theorem createParams_params (tp : List GoType) (var : Bool) (f : FState)
    (h : var = true → tp ≠ []) :
    ∃ ps : List Value, (createParams f tp var).params = f.params ++ ps := by
  have hfold : ∀ (l : List GoType) (f0 : FState),
      ∃ ps, (l.foldl (fun fa t => (fa.addParam t).1) f0).params = f0.params ++ ps ∧
        ps.length = l.length := by
    intro l
    induction l with
    | nil => intro f0; exact ⟨[], by simp⟩
    | cons hd tl ih =>
        intro f0
        obtain ⟨ps, hps, hlen⟩ := ih ((f0.addParam hd).1)
        refine ⟨Value.param f0.params.length hd :: ps, ?_, by simp [hlen]⟩
        simp only [List.foldl_cons]
        rw [hps]
        simp [FState.addParam]
  obtain ⟨ps, hps, hlen⟩ := hfold tp f
  rw [createParams]
  cases hv : var
  · simp only [Bool.false_eq_true, if_false]
    exact ⟨ps, hps⟩
  · have htp : tp ≠ [] := h hv
    have hpsne : ps ≠ [] := by
      intro hnil
      rw [hnil] at hlen
      exact htp (List.eq_nil_of_length_eq_zero hlen.symm)
    simp only [if_true]
    rw [hps, List.getLast?_append_of_ne_nil _ hpsne]
    rcases hgl : ps.getLast? with _ | v
    · rw [List.getLast?_eq_none_iff] at hgl
      exact absurd hgl hpsne
    · cases v with
      | const c t =>
          refine ⟨ps.dropLast ++ [Value.const c t], ?_⟩
          simp [hps, List.dropLast_append_of_ne_nil _ hpsne]
      | param i t =>
          refine ⟨ps.dropLast ++ [Value.param i (.slice t)], ?_⟩
          simp [hps, List.dropLast_append_of_ne_nil _ hpsne]
      | capture i t =>
          refine ⟨ps.dropLast ++ [Value.capture i t], ?_⟩
          simp [hps, List.dropLast_append_of_ne_nil _ hpsne]
      | instr i t =>
          refine ⟨ps.dropLast ++ [Value.instr i t], ?_⟩
          simp [hps, List.dropLast_append_of_ne_nil _ hpsne]

/-- C6: The interface-method wrapper is built at most once per
method-object identity: a second request for the same abstract method
object — even through a different interface receiver type — returns the
identical wrapper Function instance without changing the registry, and
the wrapper's body is one abstract call to the method on the explicit
leading receiver parameter followed by a tail return (with its remaining
parameters forwarded). -/
theorem C6_interface_wrapper_shared (prog : Program) (typ1 typ2 : GoType)
    (obj : Func0) (prog1 : Program) (fn1 : Function)
    (hln : prog.ifaceMethodWrappers.lookup obj.oid = none)
    (hv : obj.variadic = true → obj.params ≠ [])
    (h1 : interfaceMethodWrapper prog typ1 obj = .ok (prog1, fn1)) :
    interfaceMethodWrapper prog1 typ2 obj = .ok (prog1, fn1)
    ∧ isCallThenTail fn1.body =
        some { value := some (.valV (Value.param 0 typ1)),
               method := some obj,
               args := fn1.params.drop 1 } := by
  simp only [interfaceMethodWrapper, hln, emitTailCall_trace, bind, Except.bind,
    pure, Except.pure, Except.ok.injEq, Prod.mk.injEq] at h1
  obtain ⟨hp1, hf1⟩ := h1
  subst hp1
  subst hf1
  obtain ⟨hcpI, hcpR⟩ := createParams_pre obj.params obj.variadic
    ((FState.addParam { resultTypes := obj.results } typ1).1)
  obtain ⟨ps, hcpP⟩ := createParams_params obj.params obj.variadic
    ((FState.addParam { resultTypes := obj.results } typ1).1) hv
  constructor
  · simp [interfaceMethodWrapper, List.lookup_append, hln, List.lookup, pure,
      Except.pure]
  · simp only [FState.addParam, List.nil_append, List.length_nil] at hcpI hcpR hcpP ⊢
    simp [hcpI, hcpR, hcpP, isCallThenTail_trace]

/-- C6 witness: two interface types sharing one abstract method object
resolve to the identical wrapper instance, whose body is one abstract
call on the leading receiver parameter followed by the tail return. -/
theorem C6_interface_wrapper_shared_witness :
    ∃ (prog1 : Program) (fn1 : Function),
      interfaceMethodWrapper {} (GoType.iface 1)
          { oid := 3, name := "f", recv := GoType.iface 1 } = .ok (prog1, fn1)
      ∧ interfaceMethodWrapper prog1 (GoType.iface 2)
          { oid := 3, name := "f", recv := GoType.iface 1 } = .ok (prog1, fn1)
      ∧ isCallThenTail fn1.body =
          some { value := some (.valV (Value.param 0 (GoType.iface 1))),
                 method := some { oid := 3, name := "f", recv := GoType.iface 1 },
                 args := fn1.params.drop 1 } := by
  rcases hok : interfaceMethodWrapper {} (GoType.iface 1)
      { oid := 3, name := "f", recv := GoType.iface 1 } with e | pf
  · have hs : (interfaceMethodWrapper {} (GoType.iface 1)
        { oid := 3, name := "f", recv := GoType.iface 1 }).toOption.isSome := by decide
    rw [hok] at hs
    simp [Except.toOption] at hs
  · rcases pf with ⟨p1, f1⟩
    have h := C6_interface_wrapper_shared {} (GoType.iface 1) (GoType.iface 2)
      { oid := 3, name := "f", recv := GoType.iface 1 } p1 f1 (by decide) (by decide) hok
    exact ⟨p1, f1, rfl, h.1, h.2⟩

/-- C3: At the value arrived at after the implicit-selection walk, the
wrapper emits: for an abstract target, a load of the arrived-at pointer
and one abstract (invoke-mode) call on the loaded receiver; for a
concrete target declaring a value receiver, a load first and then a
direct call to the method's registered Function with the loaded value as
first argument; for a concrete target declaring a pointer receiver, a
direct call with the arrived-at value itself as first argument and no
load; in every case the remaining formal parameters are forwarded
unchanged and the call is emitted in tail position. -/
theorem C3_wrapper_call (prog : Program) (mfunc : Func0) (f : FState) (v : Value)
    (fn0 : Function) :
    (isInterfaceU (recvType mfunc).underlying = true →
      wrapperEmitCall prog mfunc f v =
        .ok { f with
                instrs := f.instrs ++
                  Instr.load v (deref v.type) ::
                    tailCallTrace (f.instrs.length + 1) f.resultTypes
                      { value := some (.valV (Value.instr f.instrs.length (deref v.type))),
                        method := some mfunc,
                        args := f.params.drop 1 },
                blockOpen := false })
    ∧ (isInterfaceU (recvType mfunc).underlying = false →
        isPointer (recvType mfunc) = false →
        prog.concreteMethods.lookup mfunc.oid = some fn0 →
        wrapperEmitCall prog mfunc f v =
          .ok { f with
                  instrs := f.instrs ++
                    Instr.load v (deref v.type) ::
                      tailCallTrace (f.instrs.length + 1) f.resultTypes
                        { value := some (.fnV mfunc),
                          method := none,
                          args := Value.instr f.instrs.length (deref v.type) ::
                            f.params.drop 1 },
                  blockOpen := false })
    ∧ (isInterfaceU (recvType mfunc).underlying = false →
        isPointer (recvType mfunc) = true →
        prog.concreteMethods.lookup mfunc.oid = some fn0 →
        wrapperEmitCall prog mfunc f v =
          .ok { f with
                  instrs := f.instrs ++
                    tailCallTrace f.instrs.length f.resultTypes
                      { value := some (.fnV mfunc),
                        method := none,
                        args := v :: f.params.drop 1 },
                  blockOpen := false }) := by
  refine ⟨?_, ?_, ?_⟩
  · intro hi
    simp [wrapperEmitCall, hi, emitLoad, FState.emit, Instr.type,
      emitTailCall_trace, bind, Except.bind, pure, Except.pure, List.append_assoc]
  · intro hi hp hc
    simp [wrapperEmitCall, hi, hp, Program.concreteMethod, hc, emitLoad,
      FState.emit, Instr.type, emitTailCall_trace, bind, Except.bind, pure,
      Except.pure, List.append_assoc]
  · intro hi hp hc
    simp [wrapperEmitCall, hi, hp, Program.concreteMethod, hc, emitLoad,
      FState.emit, Instr.type, emitTailCall_trace, bind, Except.bind, pure,
      Except.pure, List.append_assoc]

/-- C3 witness: a pointer-receiver concrete target is called directly on
the arrived-at value, with no load, in tail position. -/
theorem C3_wrapper_call_witness :
    wrapperEmitCall
      { concreteMethods := [(4, { name := "g", synthetic := "concrete" })] }
      { oid := 4, name := "g", recv := GoType.pointer (.named 2 (.struct0 .nil)) }
      { resultTypes := [],
        params := [Value.param 0 (GoType.pointer (.named 2 (.struct0 .nil)))] }
      (Value.param 0 (GoType.pointer (.named 2 (.struct0 .nil))))
      = .ok { resultTypes := [],
              params := [Value.param 0 (GoType.pointer (.named 2 (.struct0 .nil)))],
              instrs := tailCallTrace 0 []
                { value := some (.fnV
                      { oid := 4, name := "g",
                        recv := GoType.pointer (.named 2 (.struct0 .nil)) }),
                  method := none,
                  args := [Value.param 0 (GoType.pointer (.named 2 (.struct0 .nil)))] },
              blockOpen := false } := by
  have h := (C3_wrapper_call
    { concreteMethods := [(4, { name := "g", synthetic := "concrete" })] }
    { oid := 4, name := "g", recv := GoType.pointer (.named 2 (.struct0 .nil)) }
    { resultTypes := [],
      params := [Value.param 0 (GoType.pointer (.named 2 (.struct0 .nil)))] }
    (Value.param 0 (GoType.pointer (.named 2 (.struct0 .nil))))
    { name := "g", synthetic := "concrete" }).2.2 (by decide) (by decide) (by decide)
  simpa using h

/-- C4 counterexample: `b == true` with the shared true constant as the
RIGHT operand and a boolean left operand is not short-circuited — the
emitter emits a comparison instruction and does not return the boolean
operand, refuting the claim's symmetric "one operand" reading. -/
theorem C4_compare_counterexample :
    (emitCompare {} Token.eql (Value.param 0 tBool) vTrue).2 ≠ Value.param 0 tBool
    ∧ (emitCompare {} Token.eql (Value.param 0 tBool) vTrue).1.instrs ≠ [] := by
  decide

/-- C4 (amended): only when the LEFT operand is the shared boolean-true
constant, the operator is equality and the right operand's underlying
type is boolean basic does the emitter return the right operand with no
new instruction; otherwise it emits exactly one comparison instruction of
boolean type, converting operands by the first matching rule: identical
underlying types — none; left operand of interface underlying type —
right converted to the left's type; right of interface underlying type —
left converted; left a literal constant — left converted to the right's
type; right a literal constant — right converted; otherwise none. -/
theorem C4_compare_amended (f : FState) (op : Token) (x y : Value) :
    (x = vTrue ∧ op = Token.eql ∧ isBooleanBasic y.type.underlying = true →
      emitCompare f op x y = (f, y))
    ∧ (¬(x = vTrue ∧ op = Token.eql ∧ isBooleanBasic y.type.underlying = true) →
        (IsIdentical x.type.underlying y.type.underlying = true →
          emitCompare f op x y = f.emit (.binOp op x y tBool))
        ∧ (IsIdentical x.type.underlying y.type.underlying = false →
            isInterfaceU x.type.underlying = true →
            emitCompare f op x y =
              (emitConv f y x.type).1.emit (.binOp op x (emitConv f y x.type).2 tBool))
        ∧ (IsIdentical x.type.underlying y.type.underlying = false →
            isInterfaceU x.type.underlying = false →
            isInterfaceU y.type.underlying = true →
            emitCompare f op x y =
              (emitConv f x y.type).1.emit (.binOp op (emitConv f x y.type).2 y tBool))
        ∧ (IsIdentical x.type.underlying y.type.underlying = false →
            isInterfaceU x.type.underlying = false →
            isInterfaceU y.type.underlying = false →
            x.isConstV = true →
            emitCompare f op x y =
              (emitConv f x y.type).1.emit (.binOp op (emitConv f x y.type).2 y tBool))
        ∧ (IsIdentical x.type.underlying y.type.underlying = false →
            isInterfaceU x.type.underlying = false →
            isInterfaceU y.type.underlying = false →
            x.isConstV = false →
            y.isConstV = true →
            emitCompare f op x y =
              (emitConv f y x.type).1.emit (.binOp op x (emitConv f y x.type).2 tBool))
        ∧ (IsIdentical x.type.underlying y.type.underlying = false →
            isInterfaceU x.type.underlying = false →
            isInterfaceU y.type.underlying = false →
            x.isConstV = false →
            y.isConstV = false →
            emitCompare f op x y = f.emit (.binOp op x y tBool))) := by
  constructor
  · intro hsc
    simp [emitCompare, hsc]
  · intro hsc
    refine ⟨?_, ?_, ?_, ?_, ?_, ?_⟩
    · intro hid
      simp [emitCompare, hsc, hid]
    · intro hid hxi
      simp [emitCompare, hsc, hid, hxi]
    · intro hid hxi hyi
      simp [emitCompare, hsc, hid, hxi, hyi]
    · intro hid hxi hyi hxc
      simp [emitCompare, hsc, hid, hxi, hyi, hxc]
    · intro hid hxi hyi hxc hyc
      simp [emitCompare, hsc, hid, hxi, hyi, hxc, hyc]
    · intro hid hxi hyi hxc hyc
      simp [emitCompare, hsc, hid, hxi, hyi, hxc, hyc]

/-- C4 witness: the true-on-the-left short circuit returns the boolean
operand with no instruction, and an identical-type comparison emits one
unconverted comparison instruction. -/
theorem C4_compare_amended_witness :
    emitCompare {} Token.eql vTrue (Value.param 0 tBool) = ({}, Value.param 0 tBool)
    ∧ emitCompare {} Token.lss (Value.param 0 (GoType.basic .int))
        (Value.param 1 (GoType.basic .int)) =
      FState.emit {} (.binOp Token.lss (Value.param 0 (GoType.basic .int))
        (Value.param 1 (GoType.basic .int)) tBool) := by
  constructor
  · exact (C4_compare_amended {} Token.eql vTrue (Value.param 0 tBool)).1
      ⟨rfl, rfl, by decide⟩
  · exact ((C4_compare_amended {} Token.lss (Value.param 0 (GoType.basic .int))
      (Value.param 1 (GoType.basic .int))).2 (by decide)).1 (by decide)

/-- C8: The arithmetic emitter converts, for a shift operator, the left
operand to the result type and the (basic-typed) right operand to uint64
exactly when its kind is not already unsigned; for the other eager
arithmetic/bitwise operators it converts both operands to the result
type; and any other operator aborts construction with the fatal
"illegal op" error, never silently. -/
theorem C8_emitArith (f : FState) (op : Token) (x y : Value) (t : GoType)
    (k : BasicKind) :
    ((op = Token.shl ∨ op = Token.shr) → y.type.underlying = GoType.basic k →
      emitArith f op x y t =
        .ok (let rx := emitConv f x t
             let ry := if k.isUnsigned then (rx.1, y)
                       else emitConv rx.1 y (GoType.basic .uint64)
             ry.1.emit (.binOp op rx.2 ry.2 t)))
    ∧ (op = Token.add ∨ op = Token.sub ∨ op = Token.mul ∨ op = Token.quo ∨
        op = Token.rem ∨ op = Token.and ∨ op = Token.or ∨ op = Token.xor ∨
        op = Token.andNot →
      emitArith f op x y t =
        .ok (let rx := emitConv f x t
             let ry := emitConv rx.1 y t
             ry.1.emit (.binOp op rx.2 ry.2 t)))
    ∧ (op ∉ ([Token.shl, Token.shr, Token.add, Token.sub, Token.mul, Token.quo,
              Token.rem, Token.and, Token.or, Token.xor, Token.andNot] : List Token) →
      emitArith f op x y t = .error ("illegal op in emitArith: " ++ op.str)) := by
  refine ⟨?_, ?_, ?_⟩
  · intro hop hyt
    rcases hop with h | h <;> subst h <;> simp [emitArith, hyt]
  · intro hop
    rcases hop with h | h | h | h | h | h | h | h | h <;> subst h <;> rfl
  · intro hop
    cases op <;> first | rfl | exact absurd (by decide) hop

/-- Identical types make emitConv a no-op (no instruction, same value). -/
theorem emitConv_identical (f : FState) (val : Value) (typ : GoType)
    (h : IsIdentical val.type typ = true) : emitConv f val typ = (f, val) := by
  rw [emitConv.eq_def]
  simp [h]

/-- C8 witness: addition converts both operands to the result type and
emits the operation; an equality operator reaching the arithmetic emitter
is the fatal "illegal op" error. -/
theorem C8_emitArith_witness :
    emitArith {} Token.add (Value.param 0 (GoType.basic .int))
        (Value.param 1 (GoType.basic .int)) (GoType.basic .int) =
      .ok (FState.emit {} (.binOp Token.add (Value.param 0 (GoType.basic .int))
        (Value.param 1 (GoType.basic .int)) (GoType.basic .int)))
    ∧ emitArith {} Token.eql (Value.param 0 tBool) (Value.param 1 tBool) tBool =
      .error ("illegal op in emitArith: " ++ Token.eql.str) := by
  constructor
  · have h := (C8_emitArith {} Token.add (Value.param 0 (GoType.basic .int))
      (Value.param 1 (GoType.basic .int)) (GoType.basic .int) BasicKind.int).2.1
      (Or.inl rfl)
    rw [h]
    simp [emitConv_identical {} (Value.param 0 (GoType.basic .int))
        (GoType.basic .int) (by decide),
      emitConv_identical {} (Value.param 1 (GoType.basic .int))
        (GoType.basic .int) (by decide)]
  · exact (C8_emitArith {} Token.eql (Value.param 0 tBool) (Value.param 1 tBool)
      tBool BasicKind.int).2.2 (by decide)

/-- C9 counterexample: converting the literal constant 3 of basic type
int to a named type whose underlying type is int (a non-interface target
not identical to the source) emits a ChangeType instruction and does not
produce a constant, because the conversion is value-preserving and that
case is tested first. -/
theorem C9_conv_const_counterexample :
    (emitConv {} (Value.const (.intV 3) (GoType.basic .int))
        (GoType.named 0 (GoType.basic .int))).1.instrs ≠ []
    ∧ (emitConv {} (Value.const (.intV 3) (GoType.basic .int))
        (GoType.named 0 (GoType.basic .int))).2 ≠
      Value.const (.intV 3) (GoType.named 0 (GoType.basic .int)) := by
  have h : emitConv {} (Value.const (.intV 3) (GoType.basic .int))
      (GoType.named 0 (GoType.basic .int)) =
      FState.emit {} (.changeType (Value.const (.intV 3) (GoType.basic .int))
        (GoType.named 0 (GoType.basic .int))) := by
    rw [emitConv.eq_def]
    decide
  rw [h]
  decide

/-- C9 (amended): for every conversion whose source is a literal
constant and whose target is a non-interface type that is neither
identical to the source type nor reachable by a value-preserving
relabelling of it, the conversion produces a new literal constant of the
target type carrying the same abstract value and emits no instruction. -/
theorem C9_conv_const (f : FState) (c : ConstVal) (ct typ : GoType)
    (hni : IsIdentical ct typ = false)
    (hvp : isValuePreserving ct.underlying typ.underlying = false)
    (hii : isInterfaceU typ.underlying = false) :
    emitConv f (Value.const c ct) typ = (f, Value.const c typ) := by
  rw [emitConv.eq_def]
  simp [Value.type, Value.constOf, hni, hvp, hii]

/-- C9 witness: the constant 3 of type int converted to type string (not
identical, not value-preserving, not an interface) becomes the constant 3
of type string with no instruction emitted. -/
theorem C9_conv_const_witness :
    emitConv {} (Value.const (.intV 3) (GoType.basic .int)) (GoType.basic .stringK)
      = ({}, Value.const (.intV 3) (GoType.basic .stringK)) :=
  C9_conv_const {} (.intV 3) (GoType.basic .int) (GoType.basic .stringK)
    (by decide) (by decide) (by decide)
